import Mathlib

/-!
Verification development for the Another World engine reimplementation
(rust sources under src/): a shallow embedding in Lean 4 of the mixer,
the bank unpacker, the resource manager and the bytecode VM, together
with theorems settling the specification claims about them.

Machine integers are modelled as Nat (unsigned) or Int (signed) with
explicit reductions modulo powers of two where the original types wrap;
code that can panic is modelled with Except or Option.
-/

set_option maxRecDepth 10000

namespace AnotherWorld

/-- Panic outcomes of the embedded rust code: each constructor names one
way a rust function can abort (slice index out of range, the dedicated
stack diagnostics of the VM, a failed assert, an invalid argument). -/
inductive VmPanic where
  | indexOutOfBounds
  | stackOverflow
  | stackUnderflow
  | assertionFailed
  | invalidResetThreadMode
deriving DecidableEq, Repr

/-- Value of a byte reinterpreted as a signed 8-bit integer (rust: b as i8). -/
def i8val (b : Nat) : Int :=
  if b % 256 < 128 then (b % 256 : Int) else (b % 256 : Int) - 256

/-- Truncating cast of an integer into the signed 8-bit range (rust: x as i8). -/
def i8wrap (x : Int) : Int := (x + 128) % 256 - 128

/-- Value of a 16-bit word reinterpreted as a signed 16-bit integer (rust: w as i16). -/
def i16val (w : Nat) : Int :=
  if w % 65536 < 32768 then (w % 65536 : Int) else (w % 65536 : Int) - 65536

/-! ## Mixer (src/mixer.rs) -/

/-- Number of mixer channels (src/mixer.rs NUM_CHANNELS). -/
def NUM_CHANNELS : Nat := 4

/-- Output sample rate (src/mixer.rs SOUND_SAMPLE_RATE). -/
def SOUND_SAMPLE_RATE : Nat := 22050

/-- Frequency table indexed by the PlaySound frequency byte
(src/mixer.rs FREQUENCE_TABLE). -/
def FREQUENCE_TABLE : List Nat :=
  [0x0CFF, 0x0DC3, 0x0E91, 0x0F6F, 0x1056, 0x114E, 0x1259, 0x136C,
   0x149F, 0x15D9, 0x1726, 0x1888, 0x19FD, 0x1B86, 0x1D21, 0x1EDE,
   0x20AB, 0x229C, 0x24B3, 0x26D7, 0x293F, 0x2BB2, 0x2E4C, 0x3110,
   0x33FB, 0x370D, 0x3A43, 0x3DDF, 0x4157, 0x4538, 0x4998, 0x4DAE,
   0x5240, 0x5764, 0x5C9A, 0x61C8, 0x6793, 0x6E19, 0x7485, 0x7BBD]

/-- Saturating accumulate of the mixer (src/mixer.rs add_clamp):
(a + b).clamp(-128, 127). -/
def add_clamp (a b : Int) : Int := min (max (a + b) (-128)) 127

/-- A PCM chunk held by a mixer channel (src/mixer.rs MixerChunk).
Bytes of data are unsigned; they are reinterpreted as i8 when sampled. -/
structure MixerChunk where
  data : List Nat
  len : Nat
  loop_len : Nat
  loop_pos : Nat
deriving DecidableEq, Repr

/-- MixerChunk::new: loop_pos is len when looping, else 0. -/
def MixerChunk.new (data : List Nat) (len loop_len : Nat) : MixerChunk :=
  { data := data, len := len, loop_len := loop_len,
    loop_pos := if loop_len > 0 then len else 0 }

/-- One live mixer channel (src/mixer.rs MixerChannel). -/
structure MixerChannel where
  volume : Nat
  chunk : MixerChunk
  chunk_pos : Nat
  chunk_inc : Nat
deriving DecidableEq, Repr

/-- MixerChannel::new: chunk_inc = (frequency << 8) / 22050, position 0. -/
def MixerChannel.new (volume : Nat) (chunk : MixerChunk) (frequency : Nat) :
    MixerChannel :=
  { volume := volume, chunk := chunk, chunk_pos := 0,
    chunk_inc := (frequency <<< 8) / SOUND_SAMPLE_RATE }

/-- The four mixer channel slots (src/mixer.rs Mixer). -/
structure Mixer where
  channels : List (Option MixerChannel)
deriving DecidableEq, Repr

/-- An empty mixer: four cleared channels (Mixer::new). -/
def Mixer.new : Mixer := { channels := [none, none, none, none] }

/-- Mixer::play_channel replaces the indexed slot with a fresh channel;
the rust indexing panics when the index is out of range. -/
def Mixer.play_channel (m : Mixer) (channel : Nat) (mixer_chunk : MixerChunk)
    (frequency : Nat) (volume : Nat) : Except VmPanic Mixer :=
  if channel < m.channels.length then
    Except.ok { channels :=
      m.channels.set channel (some (MixerChannel.new volume mixer_chunk frequency)) }
  else Except.error VmPanic.indexOutOfBounds

/-- Mixer::stop_channel clears the indexed slot; the rust indexing panics
when the index is out of range. -/
def Mixer.stop_channel (m : Mixer) (channel : Nat) : Except VmPanic Mixer :=
  if channel < m.channels.length then
    Except.ok { channels := m.channels.set channel none }
  else Except.error VmPanic.indexOutOfBounds

/-- Linear interpolation between the two fetched sample bytes, as in the
audio callback: b = ((b1 as i16 * (0xff - ilc) + b2 as i16 * ilc) >> 8) as i8.
The arithmetic shift right by 8 of an i16 is floor division by 256. -/
def sample_interp (c : MixerChannel) (p1 p2 : Nat) (ilc : Int) : Int :=
  let b1 := i8val (c.chunk.data.getD p1 0)
  let b2 := i8val (c.chunk.data.getD p2 0)
  i8wrap (Int.fdiv (b1 * (255 - ilc) + b2 * ilc) 256)

/-- One per-sample step of one channel inside MixerAudio::callback
(src/mixer.rs lines 119-146): returns the interpolated signed sample b and
the advanced channel, or none when a non-looping chunk ends and the
channel is removed (ch.take() followed by break). -/
def channel_sample_step (c : MixerChannel) : Option (Int × MixerChannel) :=
  let ilc : Int := (c.chunk_pos % 256 : Nat)
  let p1 := c.chunk_pos >>> 8
  let advanced := c.chunk_pos + c.chunk_inc
  if c.chunk.loop_len ≠ 0 then
    if p1 = c.chunk.loop_pos + c.chunk.loop_len - 1 then
      some (sample_interp c p1 c.chunk.loop_pos ilc,
            { c with chunk_pos := c.chunk.loop_pos })
    else
      some (sample_interp c p1 (p1 + 1) ilc, { c with chunk_pos := advanced })
  else if c.chunk.len = 0 ∨ p1 = c.chunk.len - 1 then
    none
  else
    some (sample_interp c p1 (p1 + 1) ilc, { c with chunk_pos := advanced })

/-- The slot update for one channel at one output sample:
out += b * volume / 0x40 with saturation (the i16 division truncates
toward zero, Int.tdiv). A removed or empty channel leaves the slot alone. -/
def mix_step (out : Int) (oc : Option MixerChannel) : Int × Option MixerChannel :=
  match oc with
  | none => (out, none)
  | some c =>
    match channel_sample_step c with
    | none => (out, none)
    | some p => (add_clamp out (Int.tdiv (p.1 * (c.volume : Int)) 0x40), some p.2)

/-- Value of one output slot after the per-sample accumulate of every
channel's contribution, starting from the zeroed slot, together with the
advanced channel states (MixerAudio::callback, one sample). -/
def callback_slot (chans : List (Option MixerChannel)) :
    Int × List (Option MixerChannel) :=
  chans.foldl (fun acc oc =>
    let p := mix_step acc.1 oc
    (p.1, acc.2 ++ [p.2])) (0, [])

/-- The accumulated value of one output slot. -/
def callback_slot_value (chans : List (Option MixerChannel)) : Int :=
  (callback_slot chans).1

/-! ## VM sound paths (src/vm.rs) -/

/-- VirtualMachine::play_channel: clamp the volume to 0x3F and mask the
channel index with 3 before handing the play to the mixer. -/
def vm_play_channel (m : Mixer) (channel : Nat) (mixer_chunk : MixerChunk)
    (frequence : Nat) (vol : Nat) : Except VmPanic Mixer :=
  Mixer.play_channel m (channel &&& 3) mixer_chunk frequence (min vol 0x3f)

/-- VirtualMachine::stop_channel: delegate to the mixer with the channel
byte unmasked. -/
def vm_stop_channel (m : Mixer) (channel : Nat) : Except VmPanic Mixer :=
  Mixer.stop_channel m channel

/-- VirtualMachine::play_sound_resource. The looked-up resource chunk is
passed as an Option (None models a resource that is not Loaded, in which
case get_entry_mixer_chunk returns None and nothing happens). The
frequency-table indexing panics when the frequency byte is out of range. -/
def play_sound_resource (m : Mixer) (chunkOpt : Option MixerChunk)
    (freq vol channel : Nat) : Except VmPanic Mixer :=
  if vol = 0 then
    vm_stop_channel m channel
  else
    match chunkOpt with
    | some mixer_chunk =>
      if freq < FREQUENCE_TABLE.length then
        vm_play_channel m (channel &&& 3) mixer_chunk
          (FREQUENCE_TABLE.getD freq 0) (min vol 0x3f)
      else Except.error VmPanic.indexOutOfBounds
    | none => Except.ok m

/-! ## Sfx player (src/sfxplayer.rs) -/

/-- An instrument: cloned PCM data plus base volume, a 16-bit word read
from the module (src/sfxplayer.rs SfxInstrument). -/
structure SfxInstrument where
  data : List Nat
  volume : Nat
deriving DecidableEq, Repr

/-- A pattern ready to play (src/sfxplayer.rs SfxPattern). -/
structure SfxPattern where
  note1 : Nat
  note2 : Nat
  sample_buffer : List Nat
  sample_len : Nat
  loop_pos : Nat
  loop_len : Nat
  sample_volume : Nat
deriving DecidableEq, Repr

/-- Big-endian 16-bit read at a byte offset (byteorder BigEndian::read_u16,
as used through Buffer::fetch_word). -/
def fetch_word_at (data : List Nat) (off : Nat) : Nat :=
  (data.getD off 0 % 256) * 256 + data.getD (off + 1) 0 % 256

/-- SfxPattern::from_notes: read sample and loop lengths from the
instrument header, then apply the volume effect of note2: effect 5 adds
and saturates at 0x3F, effect 6 subtracts and floors at 0, any other
effect leaves the base volume unchanged. The u16 addition wraps. -/
def SfxPattern.from_notes (note1 note2 : Nat) (sample : SfxInstrument) :
    SfxPattern :=
  let sample_len := fetch_word_at sample.data 0 * 2
  let loop_len := fetch_word_at sample.data 2 * 2
  let pair := if loop_len ≠ 0 then (sample_len, loop_len) else (0, 0)
  let effect := (note2 &&& 0x0f00) >>> 8
  let volume := note2 &&& 0xff
  let m :=
    if effect = 5 then
      let m1 := (sample.volume + volume) % 65536
      if m1 > 0x3f then 0x3f else m1
    else if effect = 6 then
      if sample.volume < volume then 0 else sample.volume - volume
    else sample.volume
  { note1 := note1, note2 := note2, sample_buffer := sample.data.drop 8,
    sample_len := sample_len, loop_pos := pair.1, loop_len := pair.2,
    sample_volume := m }

/-- MixerChunk::from_sfx_pattern. -/
def MixerChunk.from_sfx_pattern (pat : SfxPattern) : MixerChunk :=
  { data := pat.sample_buffer, len := pat.sample_len,
    loop_len := pat.loop_len, loop_pos := pat.loop_pos }

/-- The play issued by one pattern inside SfxPlayer::handle_events
(src/sfxplayer.rs lines 170-178): assert the note range, compute the
frequency 7159092 / (note1 * 2) truncated to u16, and play the chunk on
the channel with volume sample_volume truncated to u8. -/
def sfx_play_pattern (m : Mixer) (channel : Nat) (pat : SfxPattern) :
    Except VmPanic Mixer :=
  if 0x37 ≤ pat.note1 ∧ pat.note1 < 0x1000 then
    let freq := (7159092 / (pat.note1 * 2)) % 65536
    Mixer.play_channel m channel (MixerChunk.from_sfx_pattern pat) freq
      (pat.sample_volume % 256)
  else Except.error VmPanic.assertionFailed

/-- The volume stored in a given channel slot by a mixer operation, when
the operation succeeded and the slot is occupied. -/
def stored_volume (res : Except VmPanic Mixer) (channel : Nat) : Option Nat :=
  match res with
  | Except.ok m =>
    match m.channels.getD channel none with
    | some ch => some ch.volume
    | none => none
  | Except.error _ => none

/-! ## Bank unpacker (src/bank.rs) -/

/-- State of the backward bitstream decoder (src/bank.rs Unpacker). All
registers are 32-bit; data holds the packed bytes. -/
structure Unp where
  data : List Nat
  i : Nat
  size : Nat
  datasize : Nat
  crc : Nat
  chk : Nat
  output : List Nat
deriving DecidableEq, Repr

/-- Big-endian 32-bit read at a byte offset (BigEndian::read_u32). -/
def be32At (data : List Nat) (i : Nat) : Nat :=
  (data.getD i 0 % 256) * 16777216 + (data.getD (i + 1) 0 % 256) * 65536 +
    (data.getD (i + 2) 0 % 256) * 256 + data.getD (i + 3) 0 % 256

/-- Unpacker::read_reverse_be_u32: read the 32-bit word at the cursor and
move the cursor back four bytes, refusing to decrement below offset 4. -/
def read_reverse_be_u32 (u : Unp) : Nat × Unp :=
  let result := be32At u.data u.i
  (result, if u.i ≥ 4 then { u with i := u.i - 4 } else u)

/-- Unpacker::rcr: rotate the chk register right through the carry,
returning the bit shifted out. -/
def rcr (u : Unp) (cf : Bool) : Bool × Unp :=
  let rcf := (u.chk &&& 1) != 0
  let chk1 := u.chk >>> 1
  (rcf, { u with chk := if cf then chk1 ||| 0x80000000 else chk1 })

/-- Unpacker::next_chunk: pull one bit; when the register empties, refill
it from the next backward 32-bit word, XOR the word into crc, and pull the
bit with the carry set. -/
def next_chunk (u : Unp) : Bool × Unp :=
  let p := rcr u false
  if p.2.chk = 0 then
    let q := read_reverse_be_u32 p.2
    let u2 := { q.2 with chk := q.1, crc := q.2.crc ^^^ q.1 }
    rcr u2 true
  else p

/-- Helper for Unpacker::get_code: accumulate num_chunks bits msb-first. -/
def get_code_aux : Nat → Nat → Unp → Nat × Unp
  | 0, c, u => (c, u)
  | n + 1, c, u =>
    let p := next_chunk u
    get_code_aux n (if p.1 then c <<< 1 ||| 1 else c <<< 1) p.2

/-- Unpacker::get_code: read an n-bit big-endian code from the bitstream. -/
def get_code (num_chunks : Nat) (u : Unp) : Nat × Unp :=
  get_code_aux num_chunks 0 u

/-- The literal-emission loop of Unpacker::dec_unk1: each emitted byte is
one raw 8-bit code (the u8 cast is the reduction modulo 256). -/
def emit_literals : Nat → Unp → Unp
  | 0, u => u
  | n + 1, u =>
    let p := get_code 8 u
    emit_literals n { p.2 with output := p.2.output ++ [p.1 % 256] }

/-- Unpacker::dec_unk1: read a length code, subtract the emission count
from datasize (u32 wrap), and emit count literal bytes. -/
def dec_unk1 (num_chunks add_count : Nat) (u : Unp) : Unp :=
  let p := get_code num_chunks u
  let count := p.1 + add_count + 1
  emit_literals count
    { p.2 with datasize := (p.2.datasize + (2 ^ 32 - count % 2 ^ 32)) % 2 ^ 32 }

/-- The copy loop of Unpacker::dec_unk2: each step pushes the byte i
positions back from the end of the output built so far. -/
def emit_copies : Nat → Nat → Unp → Unp
  | 0, _, u => u
  | n + 1, i, u =>
    emit_copies n i
      { u with output := u.output ++ [u.output.getD (u.output.length - i) 0] }

/-- Unpacker::dec_unk2: read an offset code, subtract size + 1 emissions
from datasize (u32 wrap), and copy size + 1 earlier output bytes. -/
def dec_unk2 (num_chunks : Nat) (u : Unp) : Unp :=
  let p := get_code num_chunks u
  let count := p.2.size + 1
  emit_copies count p.1
    { p.2 with datasize := (p.2.datasize + (2 ^ 32 - count % 2 ^ 32)) % 2 ^ 32 }

/-- One iteration of the main loop of Unpacker::unpack: 1-2 control bits
select a literal run (0 0), a two-byte back-reference (0 1), and for a
leading 1 a 2-bit code selecting short back-references (0, 1), a long
back-reference (2), or a long literal run (3). -/
def unpackStep (u : Unp) : Unp :=
  let p := next_chunk u
  if p.1 = false then
    let u1 := { p.2 with size := 1 }
    let q := next_chunk u1
    if q.1 = false then dec_unk1 3 0 q.2 else dec_unk2 8 q.2
  else
    let q := get_code 2 p.2
    if q.1 = 3 then dec_unk1 8 8 q.2
    else if q.1 < 2 then dec_unk2 (q.1 + 9) { q.2 with size := q.1 + 2 }
    else
      let r := get_code 8 q.2
      dec_unk2 12 { r.2 with size := r.1 }

/-- Failure mode of the unpacker: the final CRC register is non-zero
(the rust code panics with a CRC error). -/
inductive UnpackError where
  | checksumMismatch
deriving DecidableEq, Repr

/-- The while-loop of Unpacker::unpack, with fuel; returns the state when
datasize has reached zero, or none when the fuel runs out. -/
def unpackLoop : Nat → Unp → Option Unp
  | 0, u => if u.datasize = 0 then some u else none
  | fuel + 1, u =>
    if u.datasize = 0 then some u else unpackLoop fuel (unpackStep u)

/-- The tail of Unpacker::unpack after the loop: fail on a non-zero crc,
else reverse the output. -/
def unpackFinish (u : Unp) : Except UnpackError (List Nat) :=
  if u.crc ≠ 0 then Except.error UnpackError.checksumMismatch
  else Except.ok u.output.reverse

/-- The initialization of Unpacker::unpack: read datasize, crc and chk
backwards from the tail and fold chk into crc. -/
def unpack_init (data : List Nat) : Unp :=
  let u0 : Unp := ⟨data, data.length - 4, 0, 0, 0, 0, []⟩
  let p1 := read_reverse_be_u32 u0
  let u1 := { p1.2 with datasize := p1.1 }
  let p2 := read_reverse_be_u32 u1
  let u2 := { p2.2 with crc := p2.1 }
  let p3 := read_reverse_be_u32 u2
  let u3 := { p3.2 with chk := p3.1 }
  { u3 with crc := u3.crc ^^^ u3.chk }

/-- Unpacker::unpack, fuelled. -/
def unpack (data : List Nat) (fuel : Nat) :
    Option (Except UnpackError (List Nat)) :=
  (unpackLoop fuel (unpack_init data)).map unpackFinish

/-! ## Resource manager (src/resource.rs, src/parts.rs) -/

/-- Size of the memory arena (src/resource.rs MEM_BLOCK_SIZE). -/
def MEM_BLOCK_SIZE : Nat := 600 * 1024

/-- State of a mem-list entry (src/resource.rs MemEntryState). -/
inductive MemEntryState where
  | NotNeeded
  | Loaded
  | LoadMe
  | EndOfMemList
deriving DecidableEq, Repr

/-- Type of a mem-list entry (src/resource.rs EntryType). -/
inductive EntryType where
  | Sound
  | Music
  | PolyAnim
  | Palette
  | Bytecode
  | PolyCinematic
  | Unknown (n : Nat)
deriving DecidableEq, Repr

/-- One resource descriptor (src/resource.rs MemEntry; the unused unk
fields are dropped). -/
structure MemEntry where
  state : MemEntryState
  entry_type : EntryType
  buf_ptr : Nat
  rank_num : Nat
  bank_id : Nat
  bank_offset : Nat
  packed_size : Nat
  size : Nat
deriving DecidableEq, Repr

/-- A default entry, used only to give list reads a fallback value. -/
def devEntry : MemEntry :=
  { state := MemEntryState.NotNeeded, entry_type := EntryType.Sound,
    buf_ptr := 0, rank_num := 0, bank_id := 0, bank_offset := 0,
    packed_size := 0, size := 0 }

/-- The resource-manager state (src/resource.rs Resource). The arena byte
contents are not modelled: the claims concern entry states, cursors and
segment offsets only. -/
structure Resource where
  mem_list : List MemEntry
  current_part_id : Nat
  script_bak_ptr : Nat
  script_cur_ptr : Nat
  vid_bak_ptr : Nat
  vid_cur_ptr : Nat
  seg_palettes : Nat
  seg_bytecode : Nat
  seg_cinematic : Nat
  seg_video2 : Nat
  copy_vid_ptr : Bool
deriving DecidableEq, Repr

/-- Resource::new for a fresh arena. -/
def Resource.new : Resource :=
  { mem_list := [], current_part_id := 0, script_bak_ptr := 0,
    script_cur_ptr := 0, vid_bak_ptr := MEM_BLOCK_SIZE - 0x800 * 16,
    vid_cur_ptr := MEM_BLOCK_SIZE - 0x800 * 16, seg_palettes := 0,
    seg_bytecode := 0, seg_cinematic := 0, seg_video2 := 0,
    copy_vid_ptr := false }

/-- One game part record (src/parts.rs Part). -/
structure Part where
  palette : Nat
  code : Nat
  video1 : Nat
  video2 : Option Nat
deriving DecidableEq, Repr

/-- The ten game parts (src/parts.rs PARTS). -/
def PARTS : List Part :=
  [⟨0x14, 0x15, 0x16, none⟩,
   ⟨0x17, 0x18, 0x19, none⟩,
   ⟨0x1A, 0x1B, 0x1C, some 0x11⟩,
   ⟨0x1D, 0x1E, 0x1F, some 0x11⟩,
   ⟨0x20, 0x21, 0x22, some 0x11⟩,
   ⟨0x23, 0x24, 0x25, none⟩,
   ⟨0x26, 0x27, 0x28, some 0x11⟩,
   ⟨0x29, 0x2A, 0x2B, some 0x11⟩,
   ⟨0x7D, 0x7E, 0x7F, none⟩,
   ⟨0x7D, 0x7E, 0x7F, none⟩]

/-- First game part id (src/parts.rs GAME_PART_FIRST). -/
def GAME_PART_FIRST : Nat := 0x3E80

/-- Last game part id (src/parts.rs GAME_PART_LAST). -/
def GAME_PART_LAST : Nat := 0x3E89

/-- The cursor-and-flag accumulator threaded through one load pass. -/
structure LoadAcc where
  script_cur_ptr : Nat
  copy_vid_ptr : Bool
deriving DecidableEq, Repr

/-- The body of the load loop of Resource::load_marked_as_needed for one
entry. A non-LoadMe entry is untouched. A PolyAnim entry loads over the
video region (no cursor movement, state back to NotNeeded, copy flag
raised). Any other entry is refused when its size exceeds the room left
under vid_bak_ptr, is refused when its bank id is 0, and otherwise loads
at the script cursor, which then advances by its size. The returned Bool
records whether a bank read took place. -/
def loadEntry (vid_bak : Nat) (acc : LoadAcc) (e : MemEntry) :
    LoadAcc × MemEntry × Bool :=
  if e.state = MemEntryState.LoadMe then
    if e.entry_type = EntryType.PolyAnim then
      if e.bank_id = 0 then (acc, { e with state := MemEntryState.NotNeeded }, false)
      else ({ acc with copy_vid_ptr := true },
            { e with state := MemEntryState.NotNeeded }, true)
    else
      if e.size > vid_bak - acc.script_cur_ptr then
        (acc, { e with state := MemEntryState.NotNeeded }, false)
      else if e.bank_id = 0 then
        (acc, { e with state := MemEntryState.NotNeeded }, false)
      else
        ({ acc with script_cur_ptr := acc.script_cur_ptr + e.size },
         { e with state := MemEntryState.Loaded, buf_ptr := acc.script_cur_ptr },
         true)
  else (acc, e, false)

/-- The load loop over the mem list in index order, accumulating the
updated entries and the trace of indices whose banks were read. -/
def loadList (vid_bak : Nat) (acc : LoadAcc) (idx : Nat) :
    List MemEntry → LoadAcc × List MemEntry × List Nat
  | [] => (acc, [], [])
  | e :: es =>
    let p := loadEntry vid_bak acc e
    let rest := loadList vid_bak p.1 (idx + 1) es
    (rest.1, p.2.1 :: rest.2.1, (if p.2.2 then [idx] else []) ++ rest.2.2)

/-- Resource::load_marked_as_needed, also returning the bank-load trace. -/
def load_marked_as_needed (r : Resource) : Resource × List Nat :=
  let out := loadList r.vid_bak_ptr ⟨r.script_cur_ptr, r.copy_vid_ptr⟩ 0 r.mem_list
  ({ r with mem_list := out.2.1, script_cur_ptr := out.1.script_cur_ptr,
            copy_vid_ptr := out.1.copy_vid_ptr }, out.2.2)

/-- Resource::invalidate_all: mark every entry NotNeeded, reset the script
cursor. -/
def invalidate_all (r : Resource) : Resource :=
  { r with
    mem_list := r.mem_list.map (fun e => { e with state := MemEntryState.NotNeeded }),
    script_cur_ptr := 0 }

/-- Set the state of the entry at one mem-list index (the rust in-place
assignment self.mem_list[i].state = st). -/
def setStateAt (ml : List MemEntry) (i : Nat) (st : MemEntryState) :
    List MemEntry :=
  ml.set i { ml.getD i devEntry with state := st }

/-- The marking prefix of Resource::setup_part: invalidate every entry and
set the part's palette, code, cinematic and optional video2 entries to
LoadMe. -/
def mark_part_entries (r : Resource) (part : Part) : Resource :=
  let r1 := invalidate_all r
  let ml1 := setStateAt r1.mem_list part.palette MemEntryState.LoadMe
  let ml2 := setStateAt ml1 part.code MemEntryState.LoadMe
  let ml3 := setStateAt ml2 part.video1 MemEntryState.LoadMe
  let ml4 := match part.video2 with
    | some v2 => setStateAt ml3 v2 MemEntryState.LoadMe
    | none => ml3
  { r1 with mem_list := ml4 }

/-- The suffix of Resource::setup_part after the load pass: record the
four segment offsets from the entries' buf_ptr values, set the current
part id and back up the script cursor. -/
def record_segments (r3 : Resource) (part : Part) (part_id : Nat) : Resource :=
  let r4 := { r3 with
    seg_palettes := (r3.mem_list.getD part.palette devEntry).buf_ptr,
    seg_bytecode := (r3.mem_list.getD part.code devEntry).buf_ptr,
    seg_cinematic := (r3.mem_list.getD part.video1 devEntry).buf_ptr,
    seg_video2 := match part.video2 with
      | some v2 => (r3.mem_list.getD v2 devEntry).buf_ptr
      | none => r3.seg_video2,
    current_part_id := part_id }
  { r4 with script_bak_ptr := r4.script_cur_ptr }

/-- The body of Resource::setup_part past its early returns: check that
the part's entry indices are within the mem list (the rust indexing would
panic otherwise: none), mark the part's entries, run the load pass and
record the segments. -/
def setup_part_load (r : Resource) (part_id : Nat) (part : Part) :
    Option (Resource × List Nat) :=
  if (decide (part.palette < r.mem_list.length) &&
      decide (part.code < r.mem_list.length) &&
      decide (part.video1 < r.mem_list.length) &&
      (match part.video2 with
       | some v2 => decide (v2 < r.mem_list.length)
       | none => true)) = true then
    let out := load_marked_as_needed (mark_part_entries r part)
    some (record_segments out.1 part part_id, out.2)
  else none

/-- Resource::setup_part, also returning the bank-load trace. A part id
equal to the current one returns at once; an id outside the valid range
panics (none); otherwise the load body runs on the part record. -/
def setup_part (r : Resource) (part_id : Nat) : Option (Resource × List Nat) :=
  if part_id = r.current_part_id then some (r, [])
  else if part_id < GAME_PART_FIRST ∨ part_id > GAME_PART_LAST then none
  else setup_part_load r part_id
    (PARTS.getD (part_id - GAME_PART_FIRST) ⟨0, 0, 0, none⟩)

/-- Sum of the sizes of the entries currently in the Loaded state. -/
def loadedSum (ml : List MemEntry) : Nat :=
  (ml.map (fun e => if e.state = MemEntryState.Loaded then e.size else 0)).sum

/-- The rank of the entry at a mem-list index. -/
def rankAt (r : Resource) (i : Nat) : Nat := (r.mem_list.getD i devEntry).rank_num

/-- The ordering the rank-order claim asserts between two consecutive
bank loads: strictly greater rank first, or equal ranks with the higher
mem-list index first. -/
def loadPairOk (r : Resource) (i j : Nat) : Prop :=
  rankAt r i > rankAt r j ∨ (rankAt r i = rankAt r j ∧ i > j)

instance (r : Resource) (i j : Nat) : Decidable (loadPairOk r i j) :=
  inferInstanceAs (Decidable
    (rankAt r i > rankAt r j ∨ (rankAt r i = rankAt r j ∧ i > j)))

/-! ## Bytecode VM (src/vm.rs) -/

/-- Number of VM threads (src/vm.rs NUM_THREADS). -/
def NUM_THREADS : Nat := 64

/-- Sentinel requesting thread deactivation (src/vm.rs SET_INACTIVE_THREAD). -/
def SET_INACTIVE_THREAD : Nat := 0xfffe

/-- The inactive thread pc (src/vm.rs INACTIVE_THREAD). -/
def INACTIVE_THREAD : Nat := 0xffff

/-- Capacity of the return-address stack (src/vm.rs STACK_SIZE). -/
def STACK_SIZE : Nat := 0xff

/-- The execution state touched by the control-flow opcodes
(src/vm.rs VirtualMachine, restricted to memory, variables, the bytecode
cursor, the call stack and the bytecode segment base). -/
structure VmS where
  memory : Nat → Nat
  vars : Nat → Int
  script_ptr : Nat
  stack_ptr : Nat
  script_stack_calls : List Nat
  seg_bytecode : Nat

/-- VirtualMachine::fetch_byte: one byte at the cursor, cursor advances. -/
def fetch_byte (s : VmS) : Nat × VmS :=
  (s.memory s.script_ptr % 256, { s with script_ptr := s.script_ptr + 1 })

/-- VirtualMachine::fetch_word: a big-endian 16-bit word at the cursor,
cursor advances by two. -/
def fetch_word (s : VmS) : Nat × VmS :=
  ((s.memory s.script_ptr % 256) * 256 + s.memory (s.script_ptr + 1) % 256,
   { s with script_ptr := s.script_ptr + 2 })

/-- VirtualMachine::op_jmp: absolute branch within the bytecode segment. -/
def op_jmp (s : VmS) : VmS :=
  let p := fetch_word s
  { p.2 with script_ptr := p.2.seg_bytecode + p.1 }

/-- VirtualMachine::op_call: fetch the target, write the return address
into the stack array at stack_ptr (the rust indexing panics when
stack_ptr is not below the array length), run the dead overflow check,
then bump the stack pointer and jump. -/
def op_call (s : VmS) : Except VmPanic VmS :=
  let p := fetch_word s
  let s1 := p.2
  if s1.stack_ptr < s1.script_stack_calls.length then
    let s2 := { s1 with script_stack_calls :=
      s1.script_stack_calls.set s1.stack_ptr (s1.script_ptr - s1.seg_bytecode) }
    if s2.stack_ptr = STACK_SIZE then Except.error VmPanic.stackOverflow
    else Except.ok { s2 with
      stack_ptr := s2.stack_ptr + 1
      script_ptr := s2.seg_bytecode + p.1 }
  else Except.error VmPanic.indexOutOfBounds

/-- VirtualMachine::op_ret: pop one return address, or abort on an empty
stack. -/
def op_ret (s : VmS) : Except VmPanic VmS :=
  if s.stack_ptr = 0 then Except.error VmPanic.stackUnderflow
  else Except.ok { s with
    stack_ptr := s.stack_ptr - 1
    script_ptr := s.seg_bytecode + s.script_stack_calls.getD (s.stack_ptr - 1) 0 }

/-- The branch decision of VirtualMachine::op_cond_jmp: op & 7 selects
eq, ne, gt, ge, lt, le on the signed values; 6 and 7 never branch. -/
def cond_jmp_taken (opcode : Nat) (b a : Int) : Bool :=
  match opcode &&& 7 with
  | 0 => b == a
  | 1 => b != a
  | 2 => decide (b > a)
  | 3 => decide (b ≥ a)
  | 4 => decide (b < a)
  | 5 => decide (b ≤ a)
  | _ => false

/-- VirtualMachine::op_cond_jmp: fetch the op byte and the left variable,
decode the right operand by the op's bits 7 and 6, then either jump to
the fetched 16-bit target or discard it. -/
def op_cond_jmp (s : VmS) : VmS :=
  let p1 := fetch_byte s
  let opcode := p1.1
  let p2 := fetch_byte p1.2
  let b := p2.2.vars p2.1
  let pa : Int × VmS :=
    if opcode &&& 0x80 > 0 then
      let p3 := fetch_byte p2.2
      (p3.2.vars p3.1, p3.2)
    else if opcode &&& 0x40 > 0 then
      let p3 := fetch_word p2.2
      (i16val p3.1, p3.2)
    else
      let p3 := fetch_byte p2.2
      ((p3.1 : Int), p3.2)
  if cond_jmp_taken opcode b pa.1 then op_jmp pa.2 else (fetch_word pa.2).2

/-- One VM thread record (src/vm.rs Thread). -/
structure Thread where
  pc : Nat
  requested_pc_offset : Option Nat
  is_channel_active_current : Bool
  is_channel_active_requested : Bool
deriving DecidableEq, Repr

/-- Thread::new. -/
def Thread.new : Thread :=
  { pc := INACTIVE_THREAD, requested_pc_offset := none,
    is_channel_active_current := false, is_channel_active_requested := false }

/-- The per-thread body of VirtualMachine::check_thread_requests: copy the
requested pause flag into the current one, then install a pending pc
request (the 0xFFFE sentinel installs the inactive pc) and clear it. -/
def check_one_thread (t : Thread) : Thread :=
  let t1 := { t with is_channel_active_current := t.is_channel_active_requested }
  match t1.requested_pc_offset with
  | some pc_offset =>
    { t1 with
      pc := if pc_offset = SET_INACTIVE_THREAD then INACTIVE_THREAD else pc_offset,
      requested_pc_offset := none }
  | none => t1

/-- The synchronization loop of VirtualMachine::check_thread_requests over
the 64 threads (the part-switch branch that precedes it touches no thread
request fields directly and is outside these claims). -/
def check_thread_requests (threads : Fin 64 → Thread) : Fin 64 → Thread :=
  fun k => check_one_thread (threads k)

/-- VirtualMachine::op_set_set_vect: store the requested pc on the chosen
thread (rust indexing panics when the thread byte is out of range). -/
def op_set_set_vect (threads : Fin 64 → Thread) (thread_id pc_offset_requested : Nat) :
    Except VmPanic (Fin 64 → Thread) :=
  if h : thread_id < NUM_THREADS then
    Except.ok (fun k =>
      if k = ⟨thread_id, h⟩ then
        { threads k with requested_pc_offset := some pc_offset_requested }
      else threads k)
  else Except.error VmPanic.indexOutOfBounds

/-- The write loop of op_reset_thread for modes 0 and 1: set the requested
pause flag on every thread in the range. -/
def reset_active (threads : Fin 64 → Thread) (lo n : Nat) (val : Bool) :
    Fin 64 → Thread :=
  fun k =>
    if lo ≤ k.1 ∧ k.1 < lo + n then
      { threads k with is_channel_active_requested := val }
    else threads k

/-- The write loop of op_reset_thread for mode 2: request deactivation of
every thread in the range. -/
def reset_request (threads : Fin 64 → Thread) (lo n : Nat) : Fin 64 → Thread :=
  fun k =>
    if lo ≤ k.1 ∧ k.1 < lo + n then
      { threads k with requested_pc_offset := some SET_INACTIVE_THREAD }
    else threads k

/-- VirtualMachine::op_reset_thread: mask the upper bound with 63, return
early when it falls below the first thread, then set the requested pause
flag (modes 0 and 1) or the deactivation request (mode 2) on the whole
range; any other mode panics. -/
def op_reset_thread (threads : Fin 64 → Thread) (thread_id i0 a : Nat) :
    Except VmPanic (Fin 64 → Thread) :=
  let i := i0 &&& (NUM_THREADS - 1)
  if i < thread_id then Except.ok threads
  else
    let n := i - thread_id + 1
    if a = 0 ∨ a = 1 then Except.ok (reset_active threads thread_id n (a != 0))
    else if a = 2 then Except.ok (reset_request threads thread_id n)
    else Except.error VmPanic.invalidResetThreadMode

instance {e a : Type} [DecidableEq e] [DecidableEq a] : DecidableEq (Except e a) :=
  fun x y =>
    match x, y with
    | Except.ok u, Except.ok v =>
      if h : u = v then isTrue (by rw [h])
      else isFalse (by intro hc; cases hc; exact h rfl)
    | Except.error u, Except.error v =>
      if h : u = v then isTrue (by rw [h])
      else isFalse (by intro hc; cases hc; exact h rfl)
    | Except.ok _, Except.error _ => isFalse (by intro hc; cases hc)
    | Except.error _, Except.ok _ => isFalse (by intro hc; cases hc)

/-! ## Concrete states used by witnesses and counterexamples -/

/-- A 23-entry PC mem list whose rank numbers grow with the index. -/
def c1MemList : List MemEntry :=
  (List.range 23).map (fun i =>
    { state := MemEntryState.NotNeeded, entry_type := EntryType.Sound,
      buf_ptr := 0, rank_num := i, bank_id := 1, bank_offset := 0,
      packed_size := 1, size := 1 })

/-- A fresh resource manager holding that mem list. -/
def c1Res : Resource := { Resource.new with mem_list := c1MemList }

/-- The result of setting up part 0x3E80 on c1Res. -/
def c1P : Resource × List Nat :=
  (setup_part c1Res 0x3E80).getD (Resource.new, [])

/-- The result of the C2 setup run on c1Res. -/
def c2p : Resource × List Nat :=
  (setup_part c1Res 0x3E80).getD (Resource.new, [])

/-- A loadable entry: small, marked LoadMe, bank 1. -/
def c2e1 : MemEntry :=
  { state := MemEntryState.LoadMe, entry_type := EntryType.Sound,
    buf_ptr := 0, rank_num := 0, bank_id := 1, bank_offset := 0,
    packed_size := 10, size := 10 }

/-- An entry too large for the arena bound used in the C2 witness. -/
def c2e2 : MemEntry := { c2e1 with packed_size := 200, size := 200 }

/-- A load accumulator with the cursor at zero. -/
def c2acc : LoadAcc := { script_cur_ptr := 0, copy_vid_ptr := false }

/-- An unpacker state about to read the control bits 0 0. -/
def c3uA : Unp := ⟨[], 0, 0, 100, 0, 0x80000000, []⟩

/-- An unpacker state about to read the control bit 1 and the 2-bit code 3. -/
def c3uB : Unp := ⟨[], 0, 0, 100, 0, 0x80000007, []⟩

/-- An unpacker state with datasize exhausted and a corrupt crc. -/
def c3w : Unp := ⟨[], 0, 0, 0, 5, 1, []⟩

/-- A two-byte non-looping chunk holding the most negative sample twice. -/
def c4chunk : MixerChunk := ⟨[128, 128], 2, 0, 0⟩

/-- A channel at full game volume playing that chunk from its start. -/
def c4chan : MixerChannel := ⟨0x3f, c4chunk, 0, 0x100⟩

/-- An instrument whose base volume 0x40 already exceeds 0x3F. -/
def c5inst : SfxInstrument := ⟨List.replicate 16 0, 0x40⟩

/-- A small chunk for the C5 witness plays. -/
def c5wchunk : MixerChunk := ⟨[0, 0], 2, 0, 0⟩

/-- The mixer produced by the clamped VM play of the C5 witness. -/
def c5wm1 : Mixer :=
  (vm_play_channel Mixer.new 5 c5wchunk 100 200).toOption.getD Mixer.new

/-- The channel stored by that play. -/
def c5wch : MixerChannel :=
  (c5wm1.channels.getD 1 none).getD (MixerChannel.new 0 c5wchunk 0)

/-- An instrument with base volume within the 0x3F bound. -/
def c5winst : SfxInstrument := ⟨List.replicate 16 0, 0x30⟩

/-- The mixer produced by the sfx play of the C5 witness. -/
def c5wm2 : Mixer :=
  (sfx_play_pattern Mixer.new 2 (SfxPattern.from_notes 0x100 0 c5winst)).toOption.getD
    Mixer.new

/-- The channel stored by that sfx play. -/
def c5wch2 : MixerChannel :=
  (c5wm2.channels.getD 2 none).getD (MixerChannel.new 0 c5wchunk 0)

/-- A VM state whose return stack is full (255 pushed addresses). -/
def c6sFull : VmS := ⟨fun _ => 0, fun _ => 0, 0, 255, List.replicate 255 0, 0⟩

/-- A VM state whose return stack is empty. -/
def c6sEmpty : VmS := ⟨fun _ => 0, fun _ => 0, 0, 0, List.replicate 255 0, 0⟩

/-- A resource manager already set up for part 0x3E81. -/
def c9res : Resource :=
  { Resource.new with current_part_id := 0x3E81, mem_list := c1MemList }

/-- A chunk for the C10 witness plays. -/
def c10chunk : MixerChunk := ⟨[1, 2], 2, 0, 0⟩

/-! ## Helper lemmas -/

theorem getD_set_self {α : Type} (l : List α) (i : Nat) (x d : α)
    (h : i < l.length) : (l.set i x).getD i d = x := by
  simp [List.getD_eq_getElem?_getD, List.getElem?_set_self h]

theorem add_clamp_range (a b : Int) :
    -128 ≤ add_clamp a b ∧ add_clamp a b ≤ 127 := by
  unfold add_clamp
  constructor
  · exact le_min (le_max_right _ _) (by norm_num)
  · exact min_le_right _ _

theorem mix_step_range (out : Int) (oc : Option MixerChannel)
    (h1 : -128 ≤ out) (h2 : out ≤ 127) :
    -128 ≤ (mix_step out oc).1 ∧ (mix_step out oc).1 ≤ 127 := by
  cases oc with
  | none => simpa [mix_step] using ⟨h1, h2⟩
  | some c =>
    cases h : channel_sample_step c with
    | none => simpa [mix_step, h] using ⟨h1, h2⟩
    | some p =>
      simpa [mix_step, h] using
        add_clamp_range out (Int.tdiv (p.1 * (c.volume : Int)) 0x40)

theorem callback_foldl_range (chans : List (Option MixerChannel)) :
    ∀ acc : Int × List (Option MixerChannel), -128 ≤ acc.1 → acc.1 ≤ 127 →
      -128 ≤ (chans.foldl (fun acc oc =>
          let p := mix_step acc.1 oc
          (p.1, acc.2 ++ [p.2])) acc).1 ∧
        (chans.foldl (fun acc oc =>
          let p := mix_step acc.1 oc
          (p.1, acc.2 ++ [p.2])) acc).1 ≤ 127 := by
  induction chans with
  | nil => intro acc h1 h2; exact ⟨h1, h2⟩
  | cons oc rest ih =>
    intro acc h1 h2
    have h := mix_step_range acc.1 oc h1 h2
    exact ih _ h.1 h.2

/-! ## C4: mixer output saturation -/

/-- C4 counterexample: with two live channels holding the most negative
sample at full game volume (0x3F), the accumulated slot value is -128,
so the claimed bound on the absolute value, 127, fails. -/
theorem c4_counterexample :
    callback_slot_value [some c4chan, some c4chan] = -128 ∧
      ¬ (|callback_slot_value [some c4chan, some c4chan]| ≤ 127) := by
  decide

/-- C4 (amended): after the per-sample accumulate of every channel's
contribution b * volume / 0x40 into the zeroed slot, the slot value lies
in the saturation interval: -128 <= out and out <= 127 (so the absolute
value is at most 128, not 127; -128 is reachable). -/
theorem c4_callback_slot_range (chans : List (Option MixerChannel)) :
    -128 ≤ callback_slot_value chans ∧ callback_slot_value chans ≤ 127 := by
  unfold callback_slot_value callback_slot
  exact callback_foldl_range chans (0, []) (by norm_num) (by norm_num)

/-! ## C9: setup_part on the current part -/

/-- C9: calling setup_part with the part id already current returns at
once: the resource state is returned unchanged and no bank is loaded
(the load trace is empty). -/
theorem c9_setup_part_noop (r : Resource) (part_id : Nat)
    (h : part_id = r.current_part_id) :
    setup_part r part_id = some (r, []) := by
  unfold setup_part
  rw [if_pos h]

/-- C9 witness: the no-op on a concrete resource already on part 0x3E81. -/
theorem c9_setup_part_noop_witness :
    setup_part c9res 0x3E81 = some (c9res, []) :=
  c9_setup_part_noop c9res 0x3E81 rfl

/-! ## C5: volume clamping before storage -/

/-- C5 counterexample: a music pattern with no volume effect built from an
instrument with base volume 0x40 stores volume 0x40 in the channel slot,
exceeding the claimed 0x3F bound: the sfx tick path does not clamp. -/
theorem c5_counterexample :
    stored_volume
        (sfx_play_pattern Mixer.new 0 (SfxPattern.from_notes 0x100 0 c5inst)) 0 =
      some 0x40 ∧ ¬ (0x40 ≤ 0x3f) := by
  decide

/-- C5 (amended): the VM PlaySound path always clamps, so the volume it
stores is at most 0x3F; the Sfx tick path stores a volume at most 0x3F
only when the instrument's base volume is at most 0x3F or the note's
effect nibble is 5 (whose saturating add clamps) - otherwise the
unclamped volume is stored. -/
theorem c5_volume_clamp (m : Mixer) (channel : Nat) (mixer_chunk : MixerChunk)
    (frequence vol : Nat) (inst : SfxInstrument) (note1 note2 ch2 : Nat)
    (m2 : Mixer) :
    (∀ m1, vm_play_channel m channel mixer_chunk frequence vol = Except.ok m1 →
      ∀ c, m1.channels.getD (channel &&& 3) none = some c → c.volume ≤ 0x3f)
    ∧ (inst.volume ≤ 0x3f ∨ (note2 &&& 0x0f00) >>> 8 = 5 →
      ∀ m1, sfx_play_pattern m2 ch2 (SfxPattern.from_notes note1 note2 inst) =
          Except.ok m1 →
        ∀ c, m1.channels.getD ch2 none = some c → c.volume ≤ 0x3f) := by
  constructor
  · intro m1 hok c hc
    unfold vm_play_channel Mixer.play_channel at hok
    by_cases hlt : channel &&& 3 < m.channels.length
    · rw [if_pos hlt] at hok
      cases hok
      rw [getD_set_self _ _ _ _ hlt] at hc
      cases hc
      exact min_le_right vol 0x3f
    · rw [if_neg hlt] at hok
      cases hok
  · intro hvol m1 hok c hc
    have hsv : (SfxPattern.from_notes note1 note2 inst).sample_volume ≤ 0x3f := by
      have hform : (SfxPattern.from_notes note1 note2 inst).sample_volume =
          (if (note2 &&& 0x0f00) >>> 8 = 5 then
            (if (inst.volume + (note2 &&& 0xff)) % 65536 > 0x3f then 0x3f
             else (inst.volume + (note2 &&& 0xff)) % 65536)
           else if (note2 &&& 0x0f00) >>> 8 = 6 then
            (if inst.volume < note2 &&& 0xff then 0
             else inst.volume - (note2 &&& 0xff))
           else inst.volume) := rfl
      rw [hform]
      rcases hvol with hbase | heff
      · split_ifs <;> omega
      · rw [if_pos heff]
        split_ifs <;> omega
    unfold sfx_play_pattern Mixer.play_channel at hok
    by_cases hrange : 0x37 ≤ (SfxPattern.from_notes note1 note2 inst).note1 ∧
        (SfxPattern.from_notes note1 note2 inst).note1 < 0x1000
    · rw [if_pos hrange] at hok
      by_cases hlt : ch2 < m2.channels.length
      · rw [if_pos hlt] at hok
        cases hok
        rw [getD_set_self _ _ _ _ hlt] at hc
        cases hc
        simp only [MixerChannel.new]
        calc (SfxPattern.from_notes note1 note2 inst).sample_volume % 256
            ≤ (SfxPattern.from_notes note1 note2 inst).sample_volume :=
              Nat.mod_le _ _
          _ ≤ 0x3f := hsv
      · rw [if_neg hlt] at hok
        cases hok
    · rw [if_neg hrange] at hok
      cases hok

/-- C5 witness: a clamped VM play (requested volume 200, stored 0x3F) and
a clamped sfx play (base volume 0x30, no effect, stored 0x30). -/
theorem c5_volume_clamp_witness :
    c5wch.volume ≤ 0x3f ∧ c5wch2.volume ≤ 0x3f := by
  constructor
  · exact (c5_volume_clamp Mixer.new 5 c5wchunk 100 200 c5winst 0x100 0 2
      Mixer.new).1 c5wm1 (by decide) c5wch (by decide)
  · exact (c5_volume_clamp Mixer.new 5 c5wchunk 100 200 c5winst 0x100 0 2
      Mixer.new).2 (Or.inl (by decide)) c5wm2 (by decide) c5wch2 (by decide)

/-! ## C10: PlaySound channel indexing -/

/-- C10: on the PlaySound path, a non-zero volume masks the channel byte
with 3 before storing (always in bounds of the four slots), while the
zero-volume stop path indexes the four-slot array with the raw channel
byte: in bounds exactly when the byte is below 4, otherwise the indexing
aborts. -/
theorem c10_channel_indexing (m : Mixer) (mixer_chunk : MixerChunk)
    (co : Option MixerChunk) (freq vol channel : Nat)
    (hm : m.channels.length = NUM_CHANNELS) :
    (vol ≠ 0 → freq < FREQUENCE_TABLE.length →
      channel &&& 3 < NUM_CHANNELS ∧
      play_sound_resource m (some mixer_chunk) freq vol channel =
        Except.ok ⟨m.channels.set (channel &&& 3) (some (MixerChannel.new (min vol 0x3f) mixer_chunk (FREQUENCE_TABLE.getD freq 0)))⟩)
    ∧ (channel < NUM_CHANNELS →
      play_sound_resource m co freq 0 channel =
        Except.ok { channels := m.channels.set channel none })
    ∧ (NUM_CHANNELS ≤ channel →
      play_sound_resource m co freq 0 channel =
        Except.error VmPanic.indexOutOfBounds) := by
  have hmask : channel &&& 3 < NUM_CHANNELS := by
    have : channel &&& 3 ≤ 3 := Nat.and_le_right
    unfold NUM_CHANNELS
    omega
  refine ⟨fun hvol hfreq => ⟨hmask, ?_⟩, fun hlt => ?_, fun hge => ?_⟩
  · unfold play_sound_resource vm_play_channel Mixer.play_channel
    rw [if_neg hvol]
    simp only [hfreq, if_pos]
    have h33 : (3 : Nat) &&& 3 = 3 := by decide
    have hmm : (channel &&& 3) &&& 3 = channel &&& 3 := by
      rw [Nat.and_assoc, h33]
    rw [hmm, hm, if_pos hmask, min_assoc, min_self]
  · unfold play_sound_resource vm_stop_channel Mixer.stop_channel
    rw [if_pos rfl, hm, if_pos hlt]
  · unfold play_sound_resource vm_stop_channel Mixer.stop_channel
    rw [if_pos rfl, hm, if_neg (by omega)]

/-- C10 witness: on the fresh mixer, a volume-5 play on channel byte 6
stores in slot 2, a volume-0 stop on channel 2 succeeds, and a volume-0
stop on channel byte 9 aborts with the index panic. -/
theorem c10_channel_indexing_witness :
    (6 &&& 3 < NUM_CHANNELS ∧
      play_sound_resource Mixer.new (some c10chunk) 0 5 6 =
        Except.ok ⟨Mixer.new.channels.set (6 &&& 3) (some (MixerChannel.new (min 5 0x3f) c10chunk (FREQUENCE_TABLE.getD 0 0)))⟩)
    ∧ play_sound_resource Mixer.new (some c10chunk) 0 0 2 =
        Except.ok { channels := Mixer.new.channels.set 2 none }
    ∧ play_sound_resource Mixer.new (some c10chunk) 0 0 9 =
        Except.error VmPanic.indexOutOfBounds := by
  refine ⟨?_, ?_, ?_⟩
  · exact (c10_channel_indexing Mixer.new c10chunk (some c10chunk) 0 5 6
      (by decide)).1 (by decide) (by decide)
  · exact (c10_channel_indexing Mixer.new c10chunk (some c10chunk) 0 0 2
      (by decide)).2.1 (by decide)
  · exact (c10_channel_indexing Mixer.new c10chunk (some c10chunk) 0 0 9
      (by decide)).2.2 (by decide)

/-! ## C6: call/ret stack discipline -/

/-- C6 (code behaviour at the stack limit): with the stack array at its
fixed length 255, a Call on a full stack aborts - but through the
out-of-bounds panic of the array write that precedes the overflow check,
so the dedicated StackOverflow diagnostic is unreachable; Ret on an empty
stack aborts with the StackUnderflow diagnostic; otherwise Call pushes
exactly one return address and jumps, and Ret pops exactly one. -/
theorem c6_call_ret (s : VmS) (hlen : s.script_stack_calls.length = STACK_SIZE) :
    (s.stack_ptr = STACK_SIZE → op_call s = Except.error VmPanic.indexOutOfBounds)
    ∧ op_call s ≠ Except.error VmPanic.stackOverflow
    ∧ (s.stack_ptr = 0 → op_ret s = Except.error VmPanic.stackUnderflow)
    ∧ (s.stack_ptr < STACK_SIZE →
      op_call s = Except.ok { s with
        script_ptr := s.seg_bytecode +
          ((s.memory s.script_ptr % 256) * 256 + s.memory (s.script_ptr + 1) % 256)
        stack_ptr := s.stack_ptr + 1
        script_stack_calls := s.script_stack_calls.set s.stack_ptr
          (s.script_ptr + 2 - s.seg_bytecode) })
    ∧ (0 < s.stack_ptr →
      op_ret s = Except.ok { s with
        stack_ptr := s.stack_ptr - 1
        script_ptr := s.seg_bytecode + s.script_stack_calls.getD (s.stack_ptr - 1) 0 }) := by
  refine ⟨?_, ?_, ?_, ?_, ?_⟩
  · intro hf
    have hcond : ¬ (s.stack_ptr < s.script_stack_calls.length) := by omega
    simp [op_call, fetch_word, hcond]
  · by_cases h1 : s.stack_ptr < s.script_stack_calls.length
    · have h2 : ¬ (s.stack_ptr = STACK_SIZE) := by omega
      simp [op_call, fetch_word, h1, h2]
    · simp [op_call, fetch_word, h1]
  · intro h0
    simp [op_ret, h0]
  · intro hlt
    have h1 : s.stack_ptr < s.script_stack_calls.length := by omega
    have h2 : ¬ (s.stack_ptr = STACK_SIZE) := by omega
    simp [op_call, fetch_word, h1, h2]
  · intro hpos
    have h0 : ¬ (s.stack_ptr = 0) := by omega
    simp [op_ret, h0]

/-- C6 witness: on a concrete full stack the Call aborts with the
out-of-bounds panic (not the StackOverflow diagnostic); on a concrete
empty stack the Ret aborts with StackUnderflow; the normal push and pop
behave as stated. -/
theorem c6_call_ret_witness :
    op_call c6sFull = Except.error VmPanic.indexOutOfBounds
    ∧ op_call c6sFull ≠ Except.error VmPanic.stackOverflow
    ∧ op_ret c6sEmpty = Except.error VmPanic.stackUnderflow
    ∧ op_call c6sEmpty = Except.ok { c6sEmpty with
        script_ptr := c6sEmpty.seg_bytecode +
          ((c6sEmpty.memory c6sEmpty.script_ptr % 256) * 256 +
            c6sEmpty.memory (c6sEmpty.script_ptr + 1) % 256)
        stack_ptr := c6sEmpty.stack_ptr + 1
        script_stack_calls := c6sEmpty.script_stack_calls.set c6sEmpty.stack_ptr
          (c6sEmpty.script_ptr + 2 - c6sEmpty.seg_bytecode) }
    ∧ op_ret c6sFull = Except.ok { c6sFull with
        stack_ptr := c6sFull.stack_ptr - 1
        script_ptr := c6sFull.seg_bytecode +
          c6sFull.script_stack_calls.getD (c6sFull.stack_ptr - 1) 0 } :=
  ⟨(c6_call_ret c6sFull rfl).1 rfl,
   (c6_call_ret c6sFull rfl).2.1,
   (c6_call_ret c6sEmpty rfl).2.2.1 rfl,
   (c6_call_ret c6sEmpty rfl).2.2.2.1 (by decide),
   (c6_call_ret c6sFull rfl).2.2.2.2 (by decide)⟩

/-! ## C7: CondJmp decode and branch -/

/-- C7: CondJmp compares b = V[second byte] against a right operand that
is another variable's value when bit 7 of the op byte is set, else a
signed 16-bit immediate when bit 6 is set, else an unsigned 8-bit
immediate; op & 7 selects eq, ne, gt, ge, lt, le as signed comparisons
and values 6 and 7 never branch; the 16-bit target is consumed whether or
not the branch is taken (taken: jump to segment + target; not taken: the
cursor ends just past the target word); no other VM state changes. -/
theorem c7_cond_jmp (s : VmS) :
    (let op := s.memory s.script_ptr % 256
     let b := s.vars (s.memory (s.script_ptr + 1) % 256)
     let a : Int :=
       if op &&& 0x80 > 0 then s.vars (s.memory (s.script_ptr + 2) % 256)
       else if op &&& 0x40 > 0 then
         i16val ((s.memory (s.script_ptr + 2) % 256) * 256 +
           s.memory (s.script_ptr + 3) % 256)
       else ((s.memory (s.script_ptr + 2) % 256 : Nat) : Int)
     let q := if op &&& 0x80 > 0 then s.script_ptr + 3
              else if op &&& 0x40 > 0 then s.script_ptr + 4
              else s.script_ptr + 3
     let target := (s.memory q % 256) * 256 + s.memory (q + 1) % 256
     ((op_cond_jmp s).script_ptr =
        if cond_jmp_taken op b a then s.seg_bytecode + target else q + 2)
     ∧ (op_cond_jmp s).vars = s.vars
     ∧ (op_cond_jmp s).memory = s.memory
     ∧ (op_cond_jmp s).seg_bytecode = s.seg_bytecode
     ∧ (op_cond_jmp s).stack_ptr = s.stack_ptr
     ∧ (op_cond_jmp s).script_stack_calls = s.script_stack_calls)
    ∧ (∀ (op : Nat) (b a : Int),
        cond_jmp_taken op b a = true ↔
          ((op &&& 7 = 0 ∧ b = a) ∨ (op &&& 7 = 1 ∧ b ≠ a) ∨
           (op &&& 7 = 2 ∧ b > a) ∨ (op &&& 7 = 3 ∧ b ≥ a) ∨
           (op &&& 7 = 4 ∧ b < a) ∨ (op &&& 7 = 5 ∧ b ≤ a))) := by
  constructor
  · by_cases h80 : (s.memory s.script_ptr % 256) &&& 0x80 > 0
    · simp only [op_cond_jmp, fetch_byte, fetch_word, op_jmp, h80, if_pos]
      split <;> simp
    · by_cases h40 : (s.memory s.script_ptr % 256) &&& 0x40 > 0
      · simp only [op_cond_jmp, fetch_byte, fetch_word, op_jmp, h80, h40,
          if_pos, if_neg, not_false_iff]
        split <;> simp
      · simp only [op_cond_jmp, fetch_byte, fetch_word, op_jmp, h80, h40,
          if_neg, not_false_iff]
        split <;> simp
  · intro op b a
    have h8 : op &&& 7 < 8 := Nat.lt_succ_of_le Nat.and_le_right
    set r := op &&& 7 with hr
    interval_cases r <;> simp [cond_jmp_taken, ← hr]

/-! ## C8: thread request synchronization -/

/-- C8: at the synchronization point every thread gets paused_requested
copied into paused_current and any pending requested pc installed into pc
(0xFFFE installing the inactive 0xFFFF) with the request cleared; while
the mutating opcodes SetSetVect and ResetThread, whenever they complete,
leave every thread's pc and paused_current untouched (they write only the
requested fields). -/
theorem c8_thread_requests :
    (∀ (threads : Fin 64 → Thread) (k : Fin 64),
      (check_thread_requests threads k).is_channel_active_current =
          (threads k).is_channel_active_requested
      ∧ (check_thread_requests threads k).requested_pc_offset = none
      ∧ (check_thread_requests threads k).pc =
          (match (threads k).requested_pc_offset with
           | some pc_offset =>
             if pc_offset = SET_INACTIVE_THREAD then INACTIVE_THREAD else pc_offset
           | none => (threads k).pc)
      ∧ (check_thread_requests threads k).is_channel_active_requested =
          (threads k).is_channel_active_requested)
    ∧ (∀ (threads : Fin 64 → Thread) (thread_id pc_offset : Nat) (k : Fin 64),
      match op_set_set_vect threads thread_id pc_offset with
      | Except.ok out =>
        (out k).pc = (threads k).pc ∧
          (out k).is_channel_active_current = (threads k).is_channel_active_current
      | Except.error _ => True)
    ∧ (∀ (threads : Fin 64 → Thread) (thread_id i0 a : Nat) (k : Fin 64),
      match op_reset_thread threads thread_id i0 a with
      | Except.ok out =>
        (out k).pc = (threads k).pc ∧
          (out k).is_channel_active_current = (threads k).is_channel_active_current
      | Except.error _ => True) := by
  refine ⟨?_, ?_, ?_⟩
  · intro threads k
    unfold check_thread_requests check_one_thread
    cases (threads k).requested_pc_offset <;> simp
  · intro threads thread_id pc_offset k
    unfold op_set_set_vect
    by_cases h : thread_id < NUM_THREADS
    · rw [dif_pos h]
      by_cases hk : k = (⟨thread_id, h⟩ : Fin 64)
      · simp [hk]
      · simp [hk]
    · rw [dif_neg h]
      exact trivial
  · intro threads thread_id i0 a k
    have hact : ∀ (t : Fin 64 → Thread) (lo n : Nat) (v : Bool) (j : Fin 64),
        (reset_active t lo n v j).pc = (t j).pc ∧
          (reset_active t lo n v j).is_channel_active_current =
            (t j).is_channel_active_current := by
      intro t lo n v j
      unfold reset_active
      split <;> exact ⟨rfl, rfl⟩
    have hreq : ∀ (t : Fin 64 → Thread) (lo n : Nat) (j : Fin 64),
        (reset_request t lo n j).pc = (t j).pc ∧
          (reset_request t lo n j).is_channel_active_current =
            (t j).is_channel_active_current := by
      intro t lo n j
      unfold reset_request
      split <;> exact ⟨rfl, rfl⟩
    cases hres : op_reset_thread threads thread_id i0 a with
    | error e => exact trivial
    | ok out =>
      unfold op_reset_thread at hres
      by_cases hlt : i0 &&& (NUM_THREADS - 1) < thread_id
      · simp only [hlt, if_true] at hres
        cases hres
        exact ⟨rfl, rfl⟩
      · simp only [hlt, if_false] at hres
        by_cases h01 : a = 0 ∨ a = 1
        · simp only [h01, if_true] at hres
          cases hres
          exact hact threads thread_id _ _ k
        · simp only [h01, if_false] at hres
          by_cases h2 : a = 2
          · simp only [h2, if_true, reduceIte] at hres
            cases hres
            exact hreq threads thread_id _ k
          · simp only [h2, if_false] at hres
            cases hres

/-! ## Load-pass lemmas -/

theorem loadedSum_cons (e : MemEntry) (l : List MemEntry) :
    loadedSum (e :: l) =
      (if e.state = MemEntryState.Loaded then e.size else 0) + loadedSum l := by
  simp [loadedSum]

theorem loadedSum_eq_zero (ml : List MemEntry)
    (h : ∀ x ∈ ml, x.state ≠ MemEntryState.Loaded) : loadedSum ml = 0 := by
  induction ml with
  | nil => simp [loadedSum]
  | cons e l ih =>
    rw [loadedSum_cons, if_neg (h e (by simp)), ih (fun x hx => h x (by simp [hx]))]

theorem setStateAt_no_loaded (ml : List MemEntry) (i : Nat) (st : MemEntryState)
    (h : ∀ x ∈ ml, x.state ≠ MemEntryState.Loaded)
    (hst : st ≠ MemEntryState.Loaded) :
    ∀ x ∈ setStateAt ml i st, x.state ≠ MemEntryState.Loaded := by
  intro x hx
  rcases List.mem_or_eq_of_mem_set hx with hmem | heq
  · exact h x hmem
  · rw [heq]
    exact hst

theorem loadEntry_cur_sum (vb : Nat) (acc : LoadAcc) (e : MemEntry)
    (h : acc.script_cur_ptr ≤ vb) :
    (loadEntry vb acc e).1.script_cur_ptr +
        (if e.state = MemEntryState.Loaded then e.size else 0) =
      acc.script_cur_ptr +
        (if (loadEntry vb acc e).2.1.state = MemEntryState.Loaded then
          (loadEntry vb acc e).2.1.size else 0) ∧
      (loadEntry vb acc e).1.script_cur_ptr ≤ vb := by
  unfold loadEntry
  split_ifs <;> simp_all
  all_goals omega

theorem loadList_cur (vb : Nat) (es : List MemEntry) :
    ∀ (acc : LoadAcc) (idx : Nat), acc.script_cur_ptr ≤ vb →
      (loadList vb acc idx es).1.script_cur_ptr + loadedSum es =
          acc.script_cur_ptr + loadedSum (loadList vb acc idx es).2.1 ∧
        (loadList vb acc idx es).1.script_cur_ptr ≤ vb := by
  induction es with
  | nil =>
    intro acc idx hacc
    exact ⟨rfl, hacc⟩
  | cons e rest ih =>
    intro acc idx hacc
    obtain ⟨he1, he2⟩ := loadEntry_cur_sum vb acc e hacc
    obtain ⟨ih1, ih2⟩ := ih (loadEntry vb acc e).1 (idx + 1) he2
    have hstep : loadList vb acc idx (e :: rest) =
        ((loadList vb (loadEntry vb acc e).1 (idx + 1) rest).1,
         (loadEntry vb acc e).2.1 ::
           (loadList vb (loadEntry vb acc e).1 (idx + 1) rest).2.1,
         (if (loadEntry vb acc e).2.2 then [idx] else []) ++
           (loadList vb (loadEntry vb acc e).1 (idx + 1) rest).2.2) := rfl
    rw [hstep]
    dsimp only
    constructor
    · rw [loadedSum_cons, loadedSum_cons]
      omega
    · exact ih2

theorem loadList_trace (vb : Nat) (es : List MemEntry) :
    ∀ (acc : LoadAcc) (idx : Nat),
      (∀ j ∈ (loadList vb acc idx es).2.2, idx ≤ j) ∧
        List.Pairwise (· < ·) (loadList vb acc idx es).2.2 := by
  induction es with
  | nil =>
    intro acc idx
    simp [loadList]
  | cons e rest ih =>
    intro acc idx
    obtain ⟨ihlb, ihpw⟩ := ih (loadEntry vb acc e).1 (idx + 1)
    have hstep : (loadList vb acc idx (e :: rest)).2.2 =
        (if (loadEntry vb acc e).2.2 then [idx] else []) ++
          (loadList vb (loadEntry vb acc e).1 (idx + 1) rest).2.2 := rfl
    rw [hstep]
    constructor
    · intro j hj
      rw [List.mem_append] at hj
      rcases hj with hj | hj
      · cases hb : (loadEntry vb acc e).2.2 <;> rw [hb] at hj <;> simp at hj
        omega
      · exact Nat.le_of_succ_le (ihlb j hj)
    · rw [List.pairwise_append]
      refine ⟨?_, ihpw, ?_⟩
      · cases hb : (loadEntry vb acc e).2.2 <;> simp
      · intro x hx y hy
        cases hb : (loadEntry vb acc e).2.2 <;> rw [hb] at hx <;> simp at hx
        have := ihlb y hy
        omega

theorem setup_part_load_pairwise (r : Resource) (part_id : Nat) (part : Part)
    (p : Resource × List Nat) (h : setup_part_load r part_id part = some p) :
    List.Pairwise (· < ·) p.2 := by
  unfold setup_part_load at h
  split at h
  · rw [Option.some.injEq] at h
    subst h
    exact (loadList_trace _ _ _ 0).2
  · cases h

/-! ## C1: load order during part setup -/

/-- C1 counterexample: on a mem list whose entries at the part-1 indices
0x14, 0x15, 0x16 carry strictly increasing rank numbers, setup_part loads
them in mem-list index order, so the rank sequence increases and neither
the descending-rank clause nor the higher-index tie-break of the claim
holds between the first two loads. -/
theorem c1_counterexample :
    ((setup_part c1Res 0x3E80).map Prod.snd).getD [] = [0x14, 0x15, 0x16] ∧
      ¬ List.Chain' (loadPairOk c1Res) [0x14, 0x15, 0x16] := by
  constructor
  · decide
  · intro hchain
    rw [List.chain'_cons] at hchain
    exact absurd hchain.1 (by decide)

/-- C1 (amended): the sequence of bank loads performed while loading the
LoadMe entries of one part setup follows the mem-list index order: the
trace of loaded indices is strictly increasing, regardless of rank_num. -/
theorem c1_load_order (r : Resource) (part_id : Nat) (p : Resource × List Nat)
    (h : setup_part r part_id = some p) : List.Pairwise (· < ·) p.2 := by
  unfold setup_part at h
  split at h
  · cases h
    simp
  · split at h
    · cases h
    · exact setup_part_load_pairwise r part_id _ p h

/-- C1 witness: the amended order on the concrete setup of part 0x3E80,
whose trace is [0x14, 0x15, 0x16]. -/
theorem c1_load_order_witness : List.Pairwise (· < ·) c1P.2 :=
  c1_load_order c1Res 0x3E80 c1P (by decide)

theorem invalidate_all_no_loaded (r : Resource) :
    ∀ x ∈ (invalidate_all r).mem_list, x.state ≠ MemEntryState.Loaded := by
  intro x hx
  simp only [invalidate_all, List.mem_map] at hx
  obtain ⟨y, _, hy⟩ := hx
  rw [← hy]
  simp

theorem mark_part_entries_no_loaded (r : Resource) (part : Part) :
    ∀ x ∈ (mark_part_entries r part).mem_list, x.state ≠ MemEntryState.Loaded := by
  cases hv : part.video2 with
  | none =>
    simp only [mark_part_entries, hv]
    exact setStateAt_no_loaded _ _ _
      (setStateAt_no_loaded _ _ _
        (setStateAt_no_loaded _ _ _ (invalidate_all_no_loaded r) (by simp))
        (by simp)) (by simp)
  | some v2 =>
    simp only [mark_part_entries, hv]
    exact setStateAt_no_loaded _ _ _ (setStateAt_no_loaded _ _ _
      (setStateAt_no_loaded _ _ _
        (setStateAt_no_loaded _ _ _ (invalidate_all_no_loaded r) (by simp))
        (by simp)) (by simp)) (by simp)

theorem record_segments_fields (r3 : Resource) (part : Part) (part_id : Nat) :
    (record_segments r3 part part_id).script_cur_ptr = r3.script_cur_ptr ∧
      (record_segments r3 part part_id).mem_list = r3.mem_list ∧
      (record_segments r3 part part_id).vid_bak_ptr = r3.vid_bak_ptr :=
  ⟨rfl, rfl, rfl⟩

theorem load_marked_spec (r2 : Resource) (h0 : r2.script_cur_ptr = 0)
    (hz : ∀ x ∈ r2.mem_list, x.state ≠ MemEntryState.Loaded) :
    (load_marked_as_needed r2).1.script_cur_ptr =
        loadedSum (load_marked_as_needed r2).1.mem_list ∧
      (load_marked_as_needed r2).1.script_cur_ptr ≤ r2.vid_bak_ptr ∧
      (load_marked_as_needed r2).1.vid_bak_ptr = r2.vid_bak_ptr := by
  obtain ⟨h1, h2⟩ := loadList_cur r2.vid_bak_ptr r2.mem_list
    ⟨r2.script_cur_ptr, r2.copy_vid_ptr⟩ 0 (by rw [h0]; exact Nat.zero_le _)
  rw [loadedSum_eq_zero r2.mem_list hz] at h1
  dsimp only at h1 h2
  rw [h0] at h1 h2
  simp only [load_marked_as_needed, h0]
  exact ⟨by omega, h2, trivial⟩

theorem setup_part_load_cur (r : Resource) (part_id : Nat) (part : Part)
    (p : Resource × List Nat) (h : setup_part_load r part_id part = some p) :
    p.1.script_cur_ptr = loadedSum p.1.mem_list ∧
      p.1.script_cur_ptr ≤ p.1.vid_bak_ptr := by
  unfold setup_part_load at h
  split at h
  · rw [Option.some.injEq] at h
    subst h
    dsimp only
    obtain ⟨hr1, hr2, hr3⟩ := record_segments_fields
      (load_marked_as_needed (mark_part_entries r part)).1 part part_id
    rw [hr1, hr2, hr3]
    obtain ⟨hs1, hs2, hs3⟩ := load_marked_spec (mark_part_entries r part) rfl
      (mark_part_entries_no_loaded r part)
    rw [hs3]
    exact ⟨hs1, hs2⟩
  · cases h

/-! ## C2: arena bound and cursor accounting -/

/-- C2: a non-PolyAnim LoadMe entry is loaded only when
script_cur_ptr + size fits under vid_bak_ptr, in which case the cursor
advances by exactly the entry size and the entry becomes Loaded at the
old cursor; an entry failing the bound is marked NotNeeded with the
cursor unchanged. Consequently after a real setup_part the script cursor
equals the sum of the sizes of the Loaded (non-PolyAnim) entries and
stays at or below vid_bak_ptr. -/
theorem c2_arena_bound (vb : Nat) (acc : LoadAcc) (e : MemEntry)
    (r : Resource) (part_id : Nat) (p : Resource × List Nat) :
    (acc.script_cur_ptr ≤ vb → e.state = MemEntryState.LoadMe →
      e.entry_type ≠ EntryType.PolyAnim →
      ((acc.script_cur_ptr + e.size ≤ vb → e.bank_id ≠ 0 →
        loadEntry vb acc e =
          ({ acc with script_cur_ptr := acc.script_cur_ptr + e.size },
           { e with state := MemEntryState.Loaded, buf_ptr := acc.script_cur_ptr },
           true))
       ∧ (vb < acc.script_cur_ptr + e.size →
        loadEntry vb acc e = (acc, { e with state := MemEntryState.NotNeeded }, false))))
    ∧ (part_id ≠ r.current_part_id → setup_part r part_id = some p →
        p.1.script_cur_ptr = loadedSum p.1.mem_list ∧
          p.1.script_cur_ptr ≤ p.1.vid_bak_ptr) := by
  constructor
  · intro hacc hstate htype
    constructor
    · intro hsz hbank
      unfold loadEntry
      rw [if_pos hstate, if_neg htype, if_neg (by omega), if_neg hbank]
    · intro hsz
      unfold loadEntry
      rw [if_pos hstate, if_neg htype, if_pos (by omega)]
  · intro hne h
    unfold setup_part at h
    split at h
    · exact absurd ‹_› hne
    · split at h
      · cases h
      · exact setup_part_load_cur r part_id _ p h

/-- C2 witness: a concrete in-bounds load (advances the cursor by the
entry size), a concrete out-of-bounds refusal (cursor unchanged), and the
cursor accounting after the concrete setup of part 0x3E80. -/
theorem c2_arena_bound_witness :
    loadEntry 100 c2acc c2e1 =
      ({ c2acc with script_cur_ptr := c2acc.script_cur_ptr + c2e1.size },
       { c2e1 with state := MemEntryState.Loaded, buf_ptr := c2acc.script_cur_ptr },
       true)
    ∧ loadEntry 100 c2acc c2e2 =
      (c2acc, { c2e2 with state := MemEntryState.NotNeeded }, false)
    ∧ (c2p.1.script_cur_ptr = loadedSum c2p.1.mem_list ∧
       c2p.1.script_cur_ptr ≤ c2p.1.vid_bak_ptr) := by
  refine ⟨?_, ?_, ?_⟩
  · exact ((c2_arena_bound 100 c2acc c2e1 c1Res 0x3E80 c2p).1 (by decide)
      (by decide) (by decide)).1 (by decide) (by decide)
  · exact ((c2_arena_bound 100 c2acc c2e2 c1Res 0x3E80 c2p).1 (by decide)
      (by decide) (by decide)).2 (by decide)
  · exact (c2_arena_bound 100 c2acc c2e1 c1Res 0x3E80 c2p).2 (by decide)
      (by decide)

/-! ## Unpacker lemmas -/

theorem rcr_snd_output (u : Unp) (cf : Bool) : ((rcr u cf).2).output = u.output :=
  rfl

theorem read_reverse_snd_output (u : Unp) :
    ((read_reverse_be_u32 u).2).output = u.output := by
  unfold read_reverse_be_u32
  dsimp only
  split <;> rfl

theorem next_chunk_snd_output (u : Unp) : ((next_chunk u).2).output = u.output := by
  unfold next_chunk
  dsimp only
  split <;> simp [rcr_snd_output, read_reverse_snd_output]

theorem get_code_aux_output (n : Nat) :
    ∀ (c : Nat) (u : Unp), ((get_code_aux n c u).2).output = u.output := by
  induction n with
  | zero => intro c u; rfl
  | succ m ih =>
    intro c u
    unfold get_code_aux
    rw [ih, next_chunk_snd_output]

theorem get_code_snd_output (k : Nat) (u : Unp) :
    ((get_code k u).2).output = u.output :=
  get_code_aux_output k 0 u

theorem emit_literals_length (n : Nat) :
    ∀ u : Unp, (emit_literals n u).output.length = u.output.length + n := by
  induction n with
  | zero => intro u; rfl
  | succ m ih =>
    intro u
    unfold emit_literals
    rw [ih]
    dsimp only
    rw [List.length_append, get_code_snd_output]
    simp
    omega

theorem emit_literals_mem (n : Nat) :
    ∀ (u : Unp) (b : Nat), b ∈ (emit_literals n u).output → b ∈ u.output ∨ b < 256 := by
  induction n with
  | zero => intro u b hb; exact Or.inl hb
  | succ m ih =>
    intro u b hb
    unfold emit_literals at hb
    rcases ih _ b hb with hmem | hlt
    · dsimp only at hmem
      rw [get_code_snd_output] at hmem
      rcases List.mem_append.mp hmem with hmem2 | hmem2
      · exact Or.inl hmem2
      · rw [List.mem_singleton] at hmem2
        subst hmem2
        exact Or.inr (Nat.mod_lt _ (by norm_num))
    · exact Or.inr hlt

theorem dec_unk1_output_length (k a : Nat) (u : Unp) :
    (dec_unk1 k a u).output.length = u.output.length + ((get_code k u).1 + a + 1) := by
  unfold dec_unk1
  dsimp only
  rw [emit_literals_length]
  rw [get_code_snd_output]

theorem dec_unk1_output_mem (k a : Nat) (u : Unp) :
    ∀ b ∈ (dec_unk1 k a u).output, b ∈ u.output ∨ b < 256 := by
  intro b hb
  unfold dec_unk1 at hb
  rcases emit_literals_mem _ _ b hb with hmem | hlt
  · dsimp only at hmem
    rw [get_code_snd_output] at hmem
    exact Or.inl hmem
  · exact Or.inr hlt

theorem unpackStep_eq_literal (u : Unp) (h1 : (next_chunk u).1 = false)
    (h2 : (next_chunk { (next_chunk u).2 with size := 1 }).1 = false) :
    unpackStep u = dec_unk1 3 0 (next_chunk { (next_chunk u).2 with size := 1 }).2 := by
  unfold unpackStep
  dsimp only
  rw [h1, h2]
  simp

theorem unpackStep_eq_long_literal (v : Unp) (h1 : (next_chunk v).1 = true)
    (h2 : (get_code 2 (next_chunk v).2).1 = 3) :
    unpackStep v = dec_unk1 8 8 (get_code 2 (next_chunk v).2).2 := by
  unfold unpackStep
  dsimp only
  rw [h1, h2]
  simp

theorem unpackLoop_some_datasize (fuel : Nat) :
    ∀ w uf : Unp, unpackLoop fuel w = some uf → uf.datasize = 0 := by
  induction fuel with
  | zero =>
    intro w uf h
    unfold unpackLoop at h
    split at h
    · cases h
      assumption
    · cases h
  | succ m ih =>
    intro w uf h
    unfold unpackLoop at h
    split at h
    · cases h
      assumption
    · exact ih _ _ h

theorem unpackFinish_spec (u : Unp) :
    (u.crc ≠ 0 → unpackFinish u = Except.error UnpackError.checksumMismatch) ∧
      (u.crc = 0 → unpackFinish u = Except.ok u.output.reverse) := by
  constructor <;> intro h <;> simp [unpackFinish, h]

/-! ## C3: unpacker literal runs and checksum -/

/-- C3: a step whose two control bits are 0 0 runs the literal decoder
dec_unk1 3 0, and a step whose first control bit is 1 with 2-bit code 3
runs dec_unk1 8 8; dec_unk1 k a emits exactly (its k-bit length code)
+ a + 1 bytes, each a raw 8-bit code (so 0 0 emits n+1 and 1/3 emits
n+9 literals); and once the loop ends with datasize 0, unpacking fails
with the checksum-mismatch error exactly when the crc register is
non-zero, else returns the reversed output. -/
theorem c3_unpacker (u v w : Unp) (k a fuel : Nat) :
    ((next_chunk u).1 = false →
      (next_chunk { (next_chunk u).2 with size := 1 }).1 = false →
      unpackStep u = dec_unk1 3 0 (next_chunk { (next_chunk u).2 with size := 1 }).2)
    ∧ ((next_chunk v).1 = true → (get_code 2 (next_chunk v).2).1 = 3 →
      unpackStep v = dec_unk1 8 8 (get_code 2 (next_chunk v).2).2)
    ∧ ((dec_unk1 k a w).output.length =
        w.output.length + ((get_code k w).1 + a + 1)
       ∧ ∀ b ∈ (dec_unk1 k a w).output, b ∈ w.output ∨ b < 256)
    ∧ (∀ uf, unpackLoop fuel w = some uf →
        uf.datasize = 0 ∧
          (uf.crc ≠ 0 → unpackFinish uf = Except.error UnpackError.checksumMismatch) ∧
          (uf.crc = 0 → unpackFinish uf = Except.ok uf.output.reverse)) :=
  ⟨unpackStep_eq_literal u,
   unpackStep_eq_long_literal v,
   ⟨dec_unk1_output_length k a w, dec_unk1_output_mem k a w⟩,
   fun uf h => ⟨unpackLoop_some_datasize fuel w uf h,
     (unpackFinish_spec uf).1, (unpackFinish_spec uf).2⟩⟩

/-- C3 witness: the two step shapes on concrete bitstream states, the
emission count of a concrete literal run, and the checksum check on a
concrete finished state with a corrupt crc. -/
theorem c3_unpacker_witness :
    unpackStep c3uA = dec_unk1 3 0 (next_chunk { (next_chunk c3uA).2 with size := 1 }).2
    ∧ unpackStep c3uB = dec_unk1 8 8 (get_code 2 (next_chunk c3uB).2).2
    ∧ ((dec_unk1 3 0 c3w).output.length =
        c3w.output.length + ((get_code 3 c3w).1 + 0 + 1)
       ∧ ∀ b ∈ (dec_unk1 3 0 c3w).output, b ∈ c3w.output ∨ b < 256)
    ∧ (c3w.datasize = 0 ∧
        (c3w.crc ≠ 0 → unpackFinish c3w = Except.error UnpackError.checksumMismatch) ∧
        (c3w.crc = 0 → unpackFinish c3w = Except.ok c3w.output.reverse)) :=
  ⟨(c3_unpacker c3uA c3uB c3w 3 0 0).1 (by decide) (by decide),
   (c3_unpacker c3uA c3uB c3w 3 0 0).2.1 (by decide) (by decide),
   (c3_unpacker c3uA c3uB c3w 3 0 0).2.2.1,
   (c3_unpacker c3uA c3uB c3w 3 0 0).2.2.2 c3w (by decide)⟩

end AnotherWorld
